import Mathlib

/-
Verification of the identifier-normalization and matching engine of the
NDC-to-location mapper (src/streamlit_app.py).

Modelling conventions, used throughout:
* Python strings are lists of characters (`List Char`); a Lean string
  literal `s` is turned into its model by `chars s`.
* Python dictionaries keyed by strings are association lists
  (`List (List Char × _)`); insertion overwrites, lookup takes the first hit.
* Network fetches and `ET.fromstring` parsing are effects: each function that
  performs them takes the fetched body / the parse outcome as an explicit
  parameter (`statusOk : Bool`, `content : List Char`, `parsed : Option Xml`).
* `latitude`/`longitude` are `None` everywhere in the source (`parse_address`
  initializes them to `None` and never assigns them), so they are
  omitted from the records.
-/

set_option maxRecDepth 8192

def chars (s : String) : List Char := s.data

/-- Python `str.strip()`: drop whitespace from both ends. -/
def pyStrip (s : List Char) : List Char :=
  ((s.dropWhile Char.isWhitespace).reverse.dropWhile Char.isWhitespace).reverse

/-- Python `str.lstrip('0')`. -/
def dropZeros (s : List Char) : List Char := s.dropWhile (fun c => c == '0')

/-- `re.sub(r'[^\d]', '', s)`: keep only digit characters. -/
def digitsOnlyOf (s : List Char) : List Char := s.filter Char.isDigit

/-- Python `int(s)` on an all-digit string; `none` models the `ValueError`
raised on the empty string. -/
def parseNat (s : List Char) : Option Nat :=
  if s.isEmpty then none
  else some (s.foldl (fun a c => 10 * a + (c.toNat - 48)) 0)

/-- Python `f"{n:0{w}d}"`: decimal digits of `n`, left-padded with zeros to
width `w` (kept whole if already wider). -/
def padNat (w : Nat) (n : Nat) : List Char :=
  let d := Nat.toDigits 10 n
  if w ≤ d.length then d else List.replicate (w - d.length) '0' ++ d

/-- Python `list(dict.fromkeys(l))`: drop duplicates, keeping first occurrences. -/
def dedupFirst (l : List (List Char)) : List (List Char) :=
  l.foldl (fun acc v => if acc.contains v then acc else acc ++ [v]) []

/-- `_generate_all_id_variants` (src/streamlit_app.py:213-249): every key
format under which an FEI/DUNS number may be stored. -/
def idVariants (idNumber : List Char) : List (List Char) :=
  let cleanId := digitsOnlyOf idNumber
  let base := [pyStrip idNumber, cleanId, dropZeros cleanId]
  let numeric :=
    match parseNat cleanId with
    | some n => [padNat 8 n, padNat 9 n, padNat 10 n, padNat 11 n, padNat 12 n,
                 padNat 13 n, padNat 14 n, padNat 15 n, Nat.toDigits 10 n]
    | none => []
  let specials :=
    if cleanId.take 2 == ['0', '0'] then [cleanId.drop 1, cleanId.drop 2]
    else if cleanId.take 1 == ['0'] then [cleanId.drop 1]
    else []
  dedupFirst ((base ++ numeric ++ specials).filter (fun v => !v.isEmpty))

/-- Characters kept by `re.sub(r'[^\d\-]', '', ...)`: digits and dashes. -/
def digitOrDash (c : Char) : Bool := c.isDigit || c == '-'

/-- Python `s.split('-')`: split at every dash, keeping empty parts, always
returning at least one part. -/
def splitDash : List Char → List (List Char)
  | [] => [[]]
  | c :: rest =>
    if c == '-' then [] :: splitDash rest
    else
      match splitDash rest with
      | [] => [[c]]
      | p :: ps => (c :: p) :: ps

/-- The dashed NDC l-p-k built from its three segments. -/
def mkNdc (l p k : List Char) : List Char := l ++ '-' :: (p ++ '-' :: k)

/-- `normalize_ndc_for_matching` (src/streamlit_app.py:378-460): the NDC
variant set used as a fuzzy join key generator.  A Python `set` is modelled
as a list; claims about it only concern membership. -/
def ndcVariants (ndc : List Char) : List (List Char) :=
  let cleanNdc := ndc.filter digitOrDash
  let digitsOnly := cleanNdc.filter (fun c => !(c == '-'))
  let segVariants : List (List Char) :=
    if cleanNdc.contains '-' then
      match splitDash cleanNdc with
      | [labeler, product, package] =>
        if labeler.length == 5 && product.length == 4 && package.length == 2 &&
            product.take 1 == ['0'] then
          let pu := product.drop 1
          [mkNdc labeler pu package, labeler ++ pu ++ package,
           labeler ++ '-' :: pu, labeler ++ pu]
        else if labeler.length == 5 && product.length == 3 && package.length == 2 then
          let pp := '0' :: product
          [mkNdc labeler pp package, labeler ++ pp ++ package,
           labeler ++ '-' :: pp, labeler ++ pp]
        else []
      | _ => []
    else []
  let lenVariants : List (List Char) :=
    if digitsOnly.length == 8 then
      ['0' :: '0' :: '0' :: digitsOnly, '0' :: '0' :: digitsOnly, '0' :: digitsOnly]
    else if digitsOnly.length == 9 then
      ['0' :: '0' :: digitsOnly, '0' :: digitsOnly, digitsOnly.drop 1]
    else if digitsOnly.length == 10 then
      ['0' :: digitsOnly, digitsOnly.drop 1, digitsOnly.drop 2]
    else if digitsOnly.length == 11 then
      [digitsOnly.drop 1, digitsOnly.drop 2, digitsOnly.drop 3]
    else []
  let variants := digitsOnly :: segVariants ++ lenVariants
  let fmt : List Char → List (List Char) := fun v =>
    if v.length == 11 then [mkNdc (v.take 5) ((v.drop 5).take 4) (v.drop 9)]
    else if v.length == 10 then [mkNdc (v.take 5) ((v.drop 5).take 3) (v.drop 8)]
    else if v.length == 9 then [mkNdc (v.take 4) ((v.drop 4).take 3) (v.drop 7)]
    else if v.length == 8 then [mkNdc (v.take 4) ((v.drop 4).take 2) (v.drop 6)]
    else []
  let formattedVariants := variants.flatMap fmt
  let baseOf : List Char → List (List Char) := fun v =>
    if v.contains '-' then
      match splitDash v with
      | [p0, p1, _] => [p0 ++ '-' :: p1, p0 ++ p1]
      | _ => []
    else []
  let baseVariants := formattedVariants.flatMap baseOf
  (variants ++ formattedVariants ++ baseVariants).filter
    (fun v => !v.isEmpty && decide (6 ≤ v.length))

/-- All-digit test, Python `s.isdigit()`-style helper for the embedded
regular expressions. -/
def isDigits (s : List Char) : Bool := s.all Char.isDigit

/-- `re.match(r'^\d{4,5}-\d{3,4}-\d{1,2}$', s)`: exactly three all-digit
dash-separated segments of lengths 4-5, 3-4 and 1-2. -/
def matchesDashedNdc (s : List Char) : Bool :=
  match splitDash s with
  | [a, b, c] =>
    isDigits a && isDigits b && isDigits c &&
    (a.length == 4 || a.length == 5) && (b.length == 3 || b.length == 4) &&
    (c.length == 1 || c.length == 2)
  | _ => false

/-- The pad-and-format tail of `normalize_ndc` (src/streamlit_app.py:358-376),
applied to the post-dash-removal digit string. -/
def fmtNdcDigits (cleanNdc : List Char) : List Char :=
  let digitsOnly :=
    if cleanNdc.length == 10 then '0' :: cleanNdc
    else if cleanNdc.length == 8 then '0' :: '0' :: '0' :: cleanNdc
    else if cleanNdc.length == 9 then '0' :: '0' :: cleanNdc
    else cleanNdc
  if digitsOnly.length == 11 then
    mkNdc (digitsOnly.take 5) ((digitsOnly.drop 5).take 4) (digitsOnly.drop 9)
  else if digitsOnly.length == 10 then
    mkNdc (digitsOnly.take 5) ((digitsOnly.drop 5).take 3) (digitsOnly.drop 8)
  else cleanNdc

/-- `normalize_ndc` (src/streamlit_app.py:345-376). -/
def normalize_ndc (ndc : List Char) : List Char :=
  let clean := ndc.filter digitOrDash
  if clean.contains '-' then
    if matchesDashedNdc clean then clean
    else fmtNdcDigits (clean.filter (fun c => !(c == '-')))
  else fmtNdcDigits clean

/-- Python `pat in s` (substring containment). -/
def containsSub (s pat : List Char) : Bool :=
  if pat.isPrefixOf s then true
  else
    match s with
    | [] => false
    | _ :: rest => containsSub rest pat

/-- Python `s.split(sep)` for a one-character separator: keeps empty parts,
always returns at least one part. -/
def splitOnChar (sep : Char) : List Char → List (List Char)
  | [] => [[]]
  | c :: rest =>
    if c == sep then [] :: splitOnChar sep rest
    else
      match splitOnChar sep rest with
      | [] => [[c]]
      | p :: ps => (c :: p) :: ps

/-- `address.replace('\\n', ',')`: the source writes `'\\n'`, the TWO
characters backslash and `n` -- not a newline -- so only literal
backslash-n pairs become commas. -/
def replaceBsN : List Char → List Char
  | '\\' :: 'n' :: rest => ',' :: replaceBsN rest
  | c :: rest => c :: replaceBsN rest
  | [] => []

/-- The compiled form of `re.search(r'\\b(\\d{5}(?:-\\d{4})?|\\d{4,6})\\b', address)`
(src/streamlit_app.py:298).  In the raw string every backslash is doubled, so
`\\b` is a literal backslash followed by `b`, and `\\d{5}` is a literal
backslash followed by five letters `d`.  The whole pattern therefore only
matches the finite set of literal texts below; the pair stores
(full match, capture group 1), in the engine preference order (leftmost
start, alternative 1 with its greedy optional part first, then `d{4,6}`
greedily from 6 down to 4). -/
def postalTokens : List (List Char × List Char) :=
  [(chars "\\b\\ddddd-\\dddd\\b", chars "\\ddddd-\\dddd"),
   (chars "\\b\\ddddd\\b", chars "\\ddddd"),
   (chars "\\b\\dddddd\\b", chars "\\dddddd"),
   (chars "\\b\\dddd\\b", chars "\\dddd")]

/-- `re.search` over the postal-code pattern: first matching position wins,
returning capture group 1. -/
def postalSearch : List Char → Option (List Char)
  | [] => none
  | c :: rest =>
    match postalTokens.find? (fun tk => tk.1.isPrefixOf (c :: rest)) with
    | some tk => some tk.2
    | none => postalSearch rest

structure AddressParts where
  establishment_name : List Char
  address_line_1 : List Char
  city : List Char
  state_province : List Char
  country : List Char
  postal_code : List Char
  deriving Repr, DecidableEq

/-- The hard-coded country normalization of `parse_address`
(src/streamlit_app.py:286-295): substring tests on the uppercased last
segment. -/
def countryOf (lastPart : List Char) : List Char :=
  let up := lastPart.map Char.toUpper
  if containsSub up (chars "USA") || containsSub up (chars "US") ||
      containsSub up (chars "UNITED STATES") then chars "USA"
  else if containsSub up (chars "GERMANY") || containsSub up (chars "DEUTSCHLAND") then
    chars "Germany"
  else if containsSub up (chars "SWITZERLAND") || containsSub up (chars "SCHWEIZ") then
    chars "Switzerland"
  else if containsSub up (chars "SINGAPORE") then chars "Singapore"
  else lastPart

/-- `parse_address` (src/streamlit_app.py:251-314).  The `try` body is pure
and total, so the `except` branch is dead and not modelled. -/
def parse_address (address : List Char) : AddressParts :=
  let lines := splitOnChar ',' (replaceBsN address)
  let p0 : AddressParts :=
    { establishment_name := pyStrip (lines.headD [])
      address_line_1 := address
      city := chars "Unknown"
      state_province := chars "Unknown"
      country := chars "Unknown"
      postal_code := [] }
  let p1 := if 2 ≤ lines.length then
      { p0 with address_line_1 := pyStrip (lines.getD 1 []) } else p0
  let p2 := if 3 ≤ lines.length then
      { p1 with city := pyStrip (lines.getD (lines.length - 2) []) } else p1
  let p3 := if 4 ≤ lines.length then
      let lastPart := pyStrip (lines.getLastD [])
      { p2 with state_province := lastPart, country := countryOf lastPart }
    else p2
  match postalSearch address with
  | some pc => { p3 with postal_code := pc }
  | none => p3

/-- Case-insensitive prefix test (for patterns compiled with `re.IGNORECASE`). -/
def prefixCI : List Char → List Char → Bool
  | [], _ => true
  | _ :: _, [] => false
  | p :: ps, c :: cs => (p.toLower == c.toLower) && prefixCI ps cs

/-- Index of the first case-insensitive occurrence of `pat`. -/
def idxOfCI (pat : List Char) : List Char → Option Nat
  | [] => if pat.isEmpty then some 0 else none
  | c :: rest =>
    if prefixCI pat (c :: rest) then some 0
    else (idxOfCI pat rest).map (· + 1)

/-- All case-insensitive occurrence indices of `pat` in `s`. -/
def occsOfCI (pat : List Char) : List Char → List Nat
  | [] => if pat.isEmpty then [0] else []
  | c :: rest =>
    let tailOccs := (occsOfCI pat rest).map (· + 1)
    if prefixCI pat (c :: rest) then 0 :: tailOccs else tailOccs

/-- One attempted match of `<open[^>]*>.*?</close>` (`re.DOTALL`,
`re.IGNORECASE`) anchored at the head of `s`: the non-`>` attribute span,
the closing `>`, then the shortest body reaching `closeTok`.  Returns the
matched text and the remainder after it. -/
def tryBlockAt (openTok closeTok s : List Char) : Option (List Char × List Char) :=
  if prefixCI openTok s then
    let r0 := s.drop openTok.length
    let attrs := r0.takeWhile (fun c => !(c == '>'))
    match r0.drop attrs.length with
    | '>' :: body =>
      match idxOfCI closeTok body with
      | some j =>
        let n := openTok.length + attrs.length + 1 + j + closeTok.length
        some (s.take n, s.drop n)
      | none => none
    | _ => none
  else none

def scanBlocksAux (openTok closeTok : List Char) : Nat → List Char → List (List Char)
  | 0, _ => []
  | _, [] => []
  | fuel + 1, c :: rest =>
    match tryBlockAt openTok closeTok (c :: rest) with
    | some (blk, remaining) => blk :: scanBlocksAux openTok closeTok fuel remaining
    | none => scanBlocksAux openTok closeTok fuel rest

/-- `re.findall(r'<tag[^>]*>.*?</tag>', s, re.DOTALL | re.IGNORECASE)`:
successive non-overlapping leftmost matches. -/
def scanBlocks (openTok closeTok s : List Char) : List (List Char) :=
  scanBlocksAux openTok closeTok s.length s

/-- `re.search(r'pre"([^"]*)"...', s, re.IGNORECASE)` helper: leftmost
occurrence of `pre` followed by a `"`-terminated capture. -/
def searchCapCIAux (pre : List Char) : Nat → List Char → Option (List Char)
  | 0, _ => none
  | _, [] => none
  | fuel + 1, c :: rest =>
    (if prefixCI pre (c :: rest) then
      let after := (c :: rest).drop pre.length
      let cap := after.takeWhile (fun x => !(x == '"'))
      match after.drop cap.length with
      | '"' :: _ => some cap
      | _ => none
    else none).orElse (fun _ => searchCapCIAux pre fuel rest)

/-- `re.search(r'displayName="([^"]*)"', s, re.IGNORECASE)`, capture group 1. -/
def searchDisplayName (s : List Char) : Option (List Char) :=
  searchCapCIAux (chars "displayname=\"") s.length s

/-- The attribute window of a tag: the characters before the first `>`.
`none` when no `>` follows (the `[^>]*>` part of the pattern cannot match). -/
def tagWindow (afterOpen : List Char) : Option (List Char) :=
  let w := afterOpen.takeWhile (fun c => !(c == '>'))
  match afterOpen.drop w.length with
  | '>' :: _ => some w
  | _ => none

/-- Greedy capture after the LAST case-insensitive occurrence of
`pre` in `w` for which a closing quote follows and `ok` accepts the
remainder (backtracking of a greedy `[^>]*` prefers later occurrences). -/
def lastCapWith (pre : List Char) (w : List Char)
    (ok : List Char → Option (List Char × Nat)) :
    Option (List Char × List Char × Nat) :=
  ((occsOfCI pre w).reverse).findSome? (fun i =>
    let after := w.drop (i + pre.length)
    let cap := after.takeWhile (fun x => !(x == '"'))
    match after.drop cap.length with
    | '"' :: rest2 =>
      match ok rest2 with
      | some (cap2, _) => some (cap, cap2, 0)
      | none => none
    | _ => none)

/-- `re.search(r'<code[^>]*code="([^"]*)"[^>]*displayName="([^"]*)"', s,
re.IGNORECASE)`: leftmost `<code` start that completes; the two greedy
`[^>]*` gaps prefer the latest `code="` / `displayName="` occurrences
inside the attribute window. -/
def searchCodeDisplayAux : Nat → List Char → Option (List Char × List Char)
  | 0, _ => none
  | _, [] => none
  | fuel + 1, c :: rest =>
    (if prefixCI (chars "<code") (c :: rest) then
      match tagWindow ((c :: rest).drop 5) with
      | some w =>
        match lastCapWith (chars "code=\"") w (fun rest2 =>
            match lastCapWith (chars "displayname=\"") rest2
                (fun _ => some ([], 0)) with
            | some (cap2, _, _) => some (cap2, 0)
            | none => none) with
        | some (cap, cap2, _) => some (cap, cap2)
        | none => none
      | none => none
    else none).orElse (fun _ => searchCodeDisplayAux fuel rest)

def searchCodeDisplay (s : List Char) : Option (List Char × List Char) :=
  searchCodeDisplayAux s.length s

/-- The NDC code-system literal `codeSystem="2.16.840.1.113883.6.69"`
(lower-cased for the case-insensitive match). -/
def ndcSystemLit : List Char := chars "codesystem=\"2.16.840.1.113883.6.69\""

/-- `re.findall(r'<code[^>]*code="([^"]*)"[^>]*codeSystem="2\.16\.840\.1\.113883\.6\.69"',
s, re.IGNORECASE)`: all captured `code` values of `<code>` tags carrying the
NDC code system. -/
def findNdcSystemCodesAux : Nat → List Char → List (List Char)
  | 0, _ => []
  | _, [] => []
  | fuel + 1, c :: rest =>
    match (if prefixCI (chars "<code") (c :: rest) then
        match tagWindow ((c :: rest).drop 5) with
        | some w =>
          lastCapWith (chars "code=\"") w (fun rest2 =>
            match (occsOfCI ndcSystemLit rest2).reverse.head? with
            | some j => some ([], j + ndcSystemLit.length)
            | none => none)
        | none => none
      else none) with
    | some (cap, _, _) => cap :: findNdcSystemCodesAux fuel rest
    | none => findNdcSystemCodesAux fuel rest

def findNdcSystemCodes (s : List Char) : List (List Char) :=
  findNdcSystemCodesAux s.length s

/-- `re.search(r'<name[^>]*>([^<]+)</name>', s)` (optionally case
insensitive): the text of the first well-delimited name tag. -/
def searchNameTagAux (ci : Bool) : Nat → List Char → Option (List Char)
  | 0, _ => none
  | _, [] => none
  | fuel + 1, c :: rest =>
    (if (if ci then prefixCI (chars "<name") (c :: rest)
        else (chars "<name").isPrefixOf (c :: rest)) then
      match tagWindow ((c :: rest).drop 5) with
      | some w =>
        let body := (c :: rest).drop (5 + w.length + 1)
        let cap := body.takeWhile (fun x => !(x == '<'))
        if !cap.isEmpty &&
            (if ci then prefixCI (chars "</name>") (body.drop cap.length)
             else (chars "</name>").isPrefixOf (body.drop cap.length)) then
          some cap
        else none
      | none => none
    else none).orElse (fun _ => searchNameTagAux ci fuel rest)

def searchNameTag (ci : Bool) (s : List Char) : Option (List Char) :=
  searchNameTagAux ci s.length s

/-- The `operation_codes` table shared by `extract_ndc_specific_operations`
and `extract_general_operations` (src/streamlit_app.py:908-919, 973-984). -/
def operationCodes : List (List Char × List Char) :=
  [(chars "C43360", chars "Manufacture"), (chars "C82401", chars "Manufacture"),
   (chars "C25391", chars "Analysis"), (chars "C84731", chars "Pack"),
   (chars "C25392", chars "Label"), (chars "C48482", chars "Repack"),
   (chars "C73606", chars "Relabel"), (chars "C84732", chars "Sterilize"),
   (chars "C25394", chars "API Manufacture"), (chars "C43359", chars "Manufacture")]

/-- The `operation_names` table of `extract_general_operations`
(src/streamlit_app.py:986-995), in dictionary insertion order. -/
def operationNames : List (List Char × List Char) :=
  [(chars "manufacture", chars "Manufacture"),
   (chars "api manufacture", chars "API Manufacture"),
   (chars "analysis", chars "Analysis"), (chars "label", chars "Label"),
   (chars "pack", chars "Pack"), (chars "repack", chars "Repack"),
   (chars "relabel", chars "Relabel"), (chars "sterilize", chars "Sterilize")]

/-- Dictionary lookup `d[k]` guarded by `k in d`. -/
def tableGet (table : List (List Char × List Char)) (k : List Char) :
    Option (List Char) :=
  (table.find? (fun kv => kv.1 == k)).map (fun kv => kv.2)

/-- The final dedup step shared by both extractors: drop `Manufacture` when
`API Manufacture` is also present, and filter the quotes
accordingly (src/streamlit_app.py:960-964, 1026-1030). -/
def dropPlainManufacture (ops quotes : List (List Char)) :
    List (List Char) × List (List Char) :=
  if ops.contains (chars "API Manufacture") && ops.contains (chars "Manufacture") then
    (ops.erase (chars "Manufacture"),
     quotes.filter (fun q =>
       !(containsSub q (chars "Manufacture operation")) ||
       containsSub q (chars "API Manufacture operation")))
  else (ops, quotes)

/-- The operation label recognized inside one `<performance>` element: the
captured code attribute looked up in the operation-code table
(src/streamlit_app.py:925-934). -/
def ndcOpFound (perf : List Char) : Option (List Char) :=
  match searchCodeDisplay perf with
  | some cd => tableGet operationCodes cd.1
  | none => none

def ndcOpStep (ndcVariantsT : List (List Char)) (targetNdc establishmentName : List Char)
    (st : List (List Char) × List (List Char)) (perf : List Char) :
    List (List Char) × List (List Char) :=
  match ndcOpFound perf with
  | some op =>
    let ndcCodes := findNdcSystemCodes perf
    let found := ndcCodes.any (fun code =>
      (ndcVariants (pyStrip code)).any (fun v => ndcVariantsT.contains v))
    if found && !st.1.contains op then
      (st.1 ++ [op],
       st.2 ++ [chars "\"Found " ++ op ++ chars " operation for National Drug Code " ++
                targetNdc ++ chars " in " ++ establishmentName ++ chars "\""])
    else st
  | none => st

/-- `extract_ndc_specific_operations` (src/streamlit_app.py:899-965). -/
def extract_ndc_specific_operations (sectionText targetNdc establishmentName : List Char) :
    List (List Char) × List (List Char) :=
  let ndcVariantsT := ndcVariants targetNdc
  let perfElems := scanBlocks (chars "<performance") (chars "</performance>") sectionText
  let st := perfElems.foldl (ndcOpStep ndcVariantsT targetNdc establishmentName) ([], [])
  dropPlainManufacture st.1 st.2

/-- The operation label recognized inside one `<businessOperation>` block:
first by display name (API Manufacture prioritized), then by a
case-sensitive operation-code substring test
(src/streamlit_app.py:1001-1020). -/
def genOpFound (busOp : List Char) : Option (List Char) :=
  let fromDisplay : Option (List Char) :=
    match searchDisplayName busOp with
    | some d =>
      let dl := d.map Char.toLower
      if containsSub dl (chars "api") && containsSub dl (chars "manufacture") then
        some (chars "API Manufacture")
      else
        (operationNames.find? (fun kv =>
          containsSub dl kv.1 && !(kv.2 == chars "API Manufacture"))).map (fun kv => kv.2)
    | none => none
  match fromDisplay with
  | some op => some op
  | none =>
    (operationCodes.find? (fun kv => containsSub busOp kv.1)).map (fun kv => kv.2)

def genOpStep (establishmentName : List Char)
    (st : List (List Char) × List (List Char)) (busOp : List Char) :
    List (List Char) × List (List Char) :=
  match genOpFound busOp with
  | some op =>
    if !st.1.contains op then
      (st.1 ++ [op],
       st.2 ++ [chars "Found " ++ op ++ chars " operation in " ++ establishmentName])
    else st
  | none => st

/-- `extract_general_operations` (src/streamlit_app.py:967-1031). -/
def extract_general_operations (sectionText establishmentName : List Char) :
    List (List Char) × List (List Char) :=
  let busOps := scanBlocks (chars "<businessoperation") (chars "</businessoperation>") sectionText
  let st := busOps.foldl (genOpStep establishmentName) ([], [])
  dropPlainManufacture st.1 st.2

/-- A parsed XML element, as produced by `ET.fromstring`: tag (with
namespace), attributes in document order, children.  Text nodes are not
modelled: the only source function reading `.text`
(`_extract_establishment_name_from_context`) is dead code -- see below. -/
inductive Xml where
  | elem (tag : List Char) (attrs : List (List Char × List Char)) (children : List Xml)

mutual

def xmlBeq : Xml → Xml → Bool
  | .elem t a c, .elem t2 a2 c2 => t == t2 && a == a2 && xmlListBeq c c2

def xmlListBeq : List Xml → List Xml → Bool
  | [], [] => true
  | x :: xs, y :: ys => xmlBeq x y && xmlListBeq xs ys
  | _, _ => false

end

instance : BEq Xml := ⟨xmlBeq⟩

def Xml.tag : Xml → List Char
  | .elem t _ _ => t

def Xml.attrs : Xml → List (List Char × List Char)
  | .elem _ a _ => a

/-- `elem.get(name)`. -/
def Xml.getAttr (e : Xml) (name : List Char) : Option (List Char) :=
  (e.attrs.find? (fun kv => kv.1 == name)).map (fun kv => kv.2)

mutual

/-- `root.iter()`: document-order traversal, the element itself first. -/
def xmlIter : Xml → List Xml
  | .elem t a children => .elem t a children :: xmlIterList children

def xmlIterList : List Xml → List Xml
  | [] => []
  | x :: xs => xmlIter x ++ xmlIterList xs

end

/-- The local part of a tag: Python `tag.split('}')[-1]`. -/
def localName (t : List Char) : List Char :=
  (splitOnChar '}' t).getLastD []

/-- `FEIMatch` (src/streamlit_app.py:28-34): one identifier occurrence found
in the label document; `fei_number` holds the cleaned digits for both FEI
and DUNS matches. -/
structure FEIMatch where
  fei_number : List Char
  xml_location : List Char
  match_type : List Char
  establishment_name : List Char
  xml_context : List Char
  deriving Repr, DecidableEq

/-- A facility record (the `establishment_data` dictionary built by
`load_fei_database_from_spreadsheet`, src/streamlit_app.py:151-163, plus the
keys other functions may add; `Option` fields model keys absent from the
original dictionary). -/
structure Establishment where
  establishment_name : List Char
  firm_name : List Char
  address_line_1 : List Char
  city : List Char
  state_province : List Char
  country : List Char
  postal_code : List Char
  search_method : List Char
  original_fei : Option (List Char) := none
  original_duns : Option (List Char) := none
  fei_number : Option (List Char) := none
  duns_number : Option (List Char) := none
  xml_location : Option (List Char) := none
  match_type : Option (List Char) := none
  xml_context : Option (List Char) := none
  operations : List (List Char) := []
  quotes : List (List Char) := []
  deriving Repr, DecidableEq

/-- The FEI / DUNS databases: Python string-keyed dictionaries as
association lists (first hit wins; the loader's overwrites are already
resolved in the list). -/
abbrev Db := List (List Char × Establishment)

def dbFind (db : Db) (k : List Char) : Option Establishment :=
  (db.find? (fun kv => kv.1 == k)).map (fun kv => kv.2)

def dbHasKey (db : Db) (k : List Char) : Bool :=
  (db.find? (fun kv => kv.1 == k)).isSome

/-- `lookup_fei_establishment` (src/streamlit_app.py:635-649): first variant
hitting the database wins; the hit variant is recorded as `fei_number`. -/
def lookup_fei_establishment (feiNumber : List Char) (feiDb : Db) :
    Option Establishment :=
  match (idVariants feiNumber).find? (fun v => dbHasKey feiDb v) with
  | some v => (dbFind feiDb v).map (fun rec => { rec with fei_number := some v })
  | none => none

/-- `lookup_duns_establishment` (src/streamlit_app.py:651-665). -/
def lookup_duns_establishment (dunsNumber : List Char) (dunsDb : Db) :
    Option Establishment :=
  match (idVariants dunsNumber).find? (fun v => dbHasKey dunsDb v) with
  | some v => (dbFind dunsDb v).map (fun rec => { rec with duns_number := some v })
  | none => none

def quoteChar : Char := Char.ofNat 39

/-- `_get_element_xpath` (src/streamlit_app.py:743-769).  `ElementTree`
elements have no `getparent`, so the `hasattr` guard makes `parent = None`
after the first loop iteration: the "path" is just the element's local tag
(or `unknown_xpath` for the root itself, for which the loop body never runs). -/
def get_element_xpath (e root : Xml) : List Char :=
  if e == root then chars "unknown_xpath"
  else '/' :: localName e.tag

/-- `_get_element_context` (src/streamlit_app.py:771-800).  With
`getparent` unavailable the parent parts are skipped and only the
attribute summary remains (empty string when there are no attributes). -/
def get_element_context (e : Xml) : List Char :=
  match e.attrs with
  | [] => []
  | attrs =>
    chars "Attributes: " ++
      List.intercalate (chars ", ")
        (attrs.map (fun kv => localName kv.1 ++ ('=' :: quoteChar :: kv.2) ++ [quoteChar]))

/-- `_extract_establishment_name_from_context` (src/streamlit_app.py:802-824):
`getparent` is unavailable on `ElementTree` elements, so every path yields
`"Unknown"`. -/
def extract_establishment_name_from_context (_e : Xml) : List Char :=
  chars "Unknown"

/-- The structured-parse body of `find_fei_duns_matches_in_spl`
(src/streamlit_app.py:681-732): every element whose tag ends in `id` and
which carries a non-empty `extension` attribute is tested first against the
FEI database, then against the DUNS database, over the full variant set. -/
def find_fei_duns_matches_structured (root : Xml) (feiDb dunsDb : Db) :
    List FEIMatch :=
  (xmlIter root).foldl (fun ms e =>
    match e.getAttr (chars "extension") with
    | some ext =>
      if (chars "id").isSuffixOf e.tag && !ext.isEmpty then
        let cleanExtension := digitsOnlyOf ext
        let xmlContext := get_element_context e
        let xmlLocation := get_element_xpath e root
        if (idVariants ext).any (fun k => dbHasKey feiDb k) then
          ms ++ [{ fei_number := cleanExtension, xml_location := xmlLocation,
                   match_type := chars "FEI_NUMBER",
                   establishment_name := extract_establishment_name_from_context e,
                   xml_context := xmlContext }]
        else if (idVariants ext).any (fun k => dbHasKey dunsDb k) then
          ms ++ [{ fei_number := cleanExtension, xml_location := xmlLocation,
                   match_type := chars "DUNS_NUMBER",
                   establishment_name := extract_establishment_name_from_context e,
                   xml_context := xmlContext }]
        else ms
      else ms
    | none => ms) []

/-- `find_fei_duns_matches_in_spl` (src/streamlit_app.py:667-741).
`statusOk` is the `response.status_code == 200` test and `parsed` the
outcome of `ET.fromstring(content)`.  When parsing fails the handler
`except ET.XMLSyntaxError` itself raises `AttributeError`
(`xml.etree.ElementTree` has no `XMLSyntaxError` -- that name belongs to
`lxml`), which the enclosing `except Exception: pass` swallows, so the
function returns the matches accumulated so far -- the empty list -- and
the regex fallback `_find_matches_with_regex` is never reached. -/
def find_fei_duns_matches_in_spl (statusOk : Bool) (parsed : Option Xml)
    (feiDb dunsDb : Db) : List FEIMatch :=
  if !statusOk then []
  else
    match parsed with
    | some root => find_fei_duns_matches_structured root feiDb dunsDb
    | none => []

/-- `_extract_name_from_context_regex` (src/streamlit_app.py:888-897). -/
def extract_name_from_context_regex (context : List Char) : List Char :=
  match searchNameTag true context with
  | some n => pyStrip n
  | none => chars "Unknown"

/-- One match of `<id\s+([^>]*extension="(\d{7,15})"[^>]*)>` anchored at the
head of `s`: requires `<id`, at least one whitespace, a `>`-free attribute
window closed by `>`, and inside the window a `extension="` literal followed
by a digit run of length 7-15 ending at `"`.  The greedy `[^>]*` makes the
engine capture the last valid occurrence in the window.
Returns (digit capture, length of the full match). -/
def tryIdMatchAt (s : List Char) : Option (List Char × Nat) :=
  if prefixCI (chars "<id") s && ((s.drop 3).headD 'x').isWhitespace then
    match tagWindow (s.drop 3) with
    | some w =>
      match ((occsOfCI (chars "extension=\"") w).reverse).findSome? (fun i =>
          let after := w.drop (i + 11)
          let digits := after.takeWhile Char.isDigit
          if 7 ≤ digits.length && digits.length ≤ 15 &&
              (after.drop digits.length).take 1 == ['"'] then
            some digits
          else none) with
      | some digits => some (digits, 3 + w.length + 1)
      | none => none
    | none => none
  else none

/-- Positions and captures of `re.finditer` over the id pattern, with the
number of characters preceding each match (for the line count). -/
def idFinditerAux : Nat → Nat → List Char → List (Nat × List Char × Nat)
  | 0, _, _ => []
  | _, _, [] => []
  | fuel + 1, pos, c :: rest =>
    match tryIdMatchAt (c :: rest) with
    | some (digits, n) =>
      (pos, digits, n) :: idFinditerAux fuel (pos + n) ((c :: rest).drop n)
    | none => idFinditerAux fuel (pos + 1) rest

/-- `_find_matches_with_regex` (src/streamlit_app.py:826-886): the fallback
scan over raw text.  (Its `spl_id` argument is unused in the source.) -/
def find_matches_with_regex (content : List Char) (feiDb dunsDb : Db) :
    List FEIMatch :=
  (idFinditerAux content.length 0 content).foldl (fun ms m =>
    let start := m.1
    let extension := m.2.1
    let matchLen := m.2.2
    let cleanExtension := digitsOnlyOf extension
    let lineNum := ((content.take start).filter (fun c => c == '\n')).length + 1
    let startContext := start - 100
    let endContext := min content.length (start + matchLen + 100)
    let xmlContext := pyStrip (((content.drop startContext).take
        (endContext - startContext)).map (fun c => if c == '\n' then ' ' else c))
    let xmlLocation := chars "Line " ++ chars (toString lineNum) ++ chars " (regex-based)"
    let shownContext :=
      if 200 < xmlContext.length then xmlContext.take 200 ++ chars "..." else xmlContext
    if (idVariants extension).any (fun k => dbHasKey feiDb k) then
      ms ++ [{ fei_number := cleanExtension, xml_location := xmlLocation,
               match_type := chars "FEI_NUMBER",
               establishment_name := extract_name_from_context_regex xmlContext,
               xml_context := shownContext }]
    else if (idVariants extension).any (fun k => dbHasKey dunsDb k) then
      ms ++ [{ fei_number := cleanExtension, xml_location := xmlLocation,
               match_type := chars "DUNS_NUMBER",
               establishment_name := extract_name_from_context_regex xmlContext,
               xml_context := shownContext }]
    else ms) []

/-- Order-preserving dedup of the per-establishment operation and quote
lists (`list(dict.fromkeys(...))`, src/streamlit_app.py:1112-1113). -/
def dedupKeepFirst (l : List (List Char)) : List (List Char) :=
  l.foldl (fun acc v => if acc.contains v then acc else acc ++ [v]) []

/-- The per-match body of `extract_establishments_with_fei`
(src/streamlit_app.py:1052-1118): state is (`processed_numbers` in insertion
order, accumulated (cleaned number, establishment) pairs).  The cleaned
number is paired with each emitted row purely as bookkeeping; the source
keeps it only in the `processed_numbers` set. -/
def establishmentsLoopStep (sections : List (List Char)) (feiDb dunsDb : Db)
    (targetNdc : List Char)
    (st : List (List Char) × List (List Char × Establishment)) (m : FEIMatch) :
    List (List Char) × List (List Char × Establishment) :=
  if st.1.contains m.fei_number then st
  else
    let processed := st.1 ++ [m.fei_number]
    match (if m.match_type == chars "FEI_NUMBER" then
        lookup_fei_establishment m.fei_number feiDb
      else lookup_duns_establishment m.fei_number dunsDb) with
    | none => (processed, st.2)
    | some info =>
      match sections.find? (fun s => containsSub s m.fei_number) with
      | none => (processed, st.2)
      | some sec =>
        let sectionName :=
          match searchNameTag false sec with
          | some n => n
          | none => info.establishment_name
        let ndcOps := extract_ndc_specific_operations sec targetNdc sectionName
        let included :=
          if !ndcOps.1.isEmpty then some ndcOps
          else
            let allBusOps :=
              scanBlocks (chars "<businessoperation") (chars "</businessoperation>") sec
            if !allBusOps.isEmpty then
              let genOps := extract_general_operations sec sectionName
              if !genOps.1.isEmpty then
                some (genOps.1, genOps.2.map (fun q =>
                  chars "General operation (not National Drug Code-specific): " ++ q))
              else none
            else none
        match included with
        | some opsQuotes =>
          (processed, st.2 ++ [(m.fei_number,
            { info with xml_location := some m.xml_location,
                        match_type := some m.match_type,
                        xml_context := some m.xml_context,
                        operations := dedupKeepFirst opsQuotes.1,
                        quotes := dedupKeepFirst opsQuotes.2 })])
        | none => (processed, st.2)

def extract_establishments_loop (feiMatches : List FEIMatch)
    (sections : List (List Char)) (feiDb dunsDb : Db) (targetNdc : List Char) :
    List (List Char) × List (List Char × Establishment) :=
  feiMatches.foldl (establishmentsLoopStep sections feiDb dunsDb targetNdc) ([], [])

/-- `extract_establishments_with_fei` (src/streamlit_app.py:1033-1124),
returning the (cleaned id, establishment) pairs; the source's first two
return components are constant empty lists, and its establishment list is
the second projection of this result.  `statusOk`/`content`/`parsed` stand
for the fetch of the SPL document (the same document is fetched again inside
`find_fei_duns_matches_in_spl`). -/
def extract_establishments_with_fei (statusOk : Bool) (content : List Char)
    (parsed : Option Xml) (feiDb dunsDb : Db) (targetNdc : List Char) :
    List (List Char × Establishment) :=
  if !statusOk then []
  else
    (extract_establishments_loop
      (find_fei_duns_matches_in_spl statusOk parsed feiDb dunsDb)
      (scanBlocks (chars "<assignedentity") (chars "</assignedentity>") content)
      feiDb dunsDb targetNdc).2

/-- `create_establishments_from_spl` (src/streamlit_app.py:1155-1174): with
no SPL id nothing is produced; otherwise the SPL establishments, falling
back to the single labeler row (`find_labeler_info_in_spl` always returns a
non-empty dictionary, abstracted here as the `labelerInfo` parameter since
its value depends only on a further fetch of remote content). -/
def create_establishments_from_spl (splId : Option (List Char))
    (establishmentsInfo : List Establishment) (labelerInfo : Establishment) :
    List Establishment :=
  match splId with
  | none => []
  | some sid =>
    if sid.isEmpty then []
    else if establishmentsInfo.isEmpty then [labelerInfo]
    else establishmentsInfo

/-- `get_establishment_info` (src/streamlit_app.py:1126-1136): the
establishment list, capped at 10 rows.  (`extract_company_names` is computed
by the source but never used by `create_establishments_from_spl`.) -/
def get_establishment_info (splId : Option (List Char)) (statusOk : Bool)
    (content : List Char) (parsed : Option Xml) (feiDb dunsDb : Db)
    (targetNdc : List Char) (labelerInfo : Establishment) : List Establishment :=
  (create_establishments_from_spl splId
    ((extract_establishments_with_fei statusOk content parsed feiDb dunsDb targetNdc).map
      Prod.snd)
    labelerInfo).take 10

/-- `ProductInfo` (src/streamlit_app.py:19-26), the fields used by
`process_single_ndc`. -/
structure ProductInfo where
  ndc : List Char
  product_name : List Char
  labeler_name : List Char
  spl_id : Option (List Char) := none
  deriving Repr, DecidableEq

/-- One output row of `process_single_ndc` (src/streamlit_app.py:1317-1366). -/
structure ResultRow where
  ndc : List Char
  product_name : List Char
  labeler_name : List Char
  spl_id : Option (List Char)
  fei_number : Option (List Char)
  duns_number : Option (List Char)
  establishment_name : Option (List Char)
  firm_name : Option (List Char)
  address_line_1 : Option (List Char)
  city : Option (List Char)
  state : Option (List Char)
  country : Option (List Char)
  postal_code : List Char
  spl_operations : Option (List Char)
  spl_quotes : Option (List Char)
  search_method : Option (List Char)
  xml_location : Option (List Char)
  match_type : Option (List Char)
  xml_context : List Char
  deriving Repr, DecidableEq

/-- The row-building tail of `process_single_ndc`
(src/streamlit_app.py:1317-1368), given the resolved product and the
establishment list (validation, normalization and the two fetches that
precede it are the effectful environment). -/
def process_single_ndc_rows (ndc : List Char) (productInfo : ProductInfo)
    (establishments : List Establishment) : List ResultRow :=
  if establishments.isEmpty then
    [{ ndc := ndc, product_name := productInfo.product_name,
       labeler_name := productInfo.labeler_name, spl_id := productInfo.spl_id,
       fei_number := none, duns_number := none, establishment_name := none,
       firm_name := none, address_line_1 := none, city := none, state := none,
       country := none, postal_code := [], spl_operations := none,
       spl_quotes := none,
       search_method := some (chars "no_establishments_found"),
       xml_location := none, match_type := none, xml_context := [] }]
  else
    establishments.map (fun e =>
      { ndc := ndc, product_name := productInfo.product_name,
        labeler_name := productInfo.labeler_name, spl_id := productInfo.spl_id,
        fei_number := e.fei_number, duns_number := e.duns_number,
        establishment_name := some e.establishment_name,
        firm_name := some e.firm_name,
        address_line_1 := some e.address_line_1,
        city := some e.city, state := some e.state_province,
        country := some e.country, postal_code := e.postal_code,
        spl_operations := some (if e.operations.isEmpty then
            chars "None found for this National Drug Code"
          else List.intercalate (chars ", ") e.operations),
        spl_quotes := some (List.intercalate (chars " | ") e.quotes),
        search_method := some e.search_method,
        xml_location := some (e.xml_location.getD (chars "Unknown")),
        match_type := some (e.match_type.getD (chars "Unknown")),
        xml_context := e.xml_context.getD [] })

/-! ## General lemmas about the helper functions -/

theorem dedupFirst_loop_mem (l : List (List Char)) (acc : List (List Char))
    (a : List Char) :
    (a ∈ l.foldl (fun acc v => if acc.contains v then acc else acc ++ [v]) acc) ↔
      a ∈ acc ∨ a ∈ l := by
  induction l generalizing acc with
  | nil => simp
  | cons x xs ih =>
    simp only [List.foldl_cons]
    by_cases hx : acc.contains x
    · rw [if_pos hx, ih]
      have hxm : x ∈ acc := by
        simpa [List.contains, List.elem_iff] using hx
      constructor
      · rintro (h | h)
        · exact Or.inl h
        · exact Or.inr (List.mem_cons_of_mem _ h)
      · rintro (h | h)
        · exact Or.inl h
        · rcases List.mem_cons.mp h with rfl | h2
          · exact Or.inl hxm
          · exact Or.inr h2
    · rw [if_neg hx, ih]
      simp only [List.mem_append, List.mem_singleton, List.mem_cons]
      tauto

theorem mem_dedupFirst (l : List (List Char)) (a : List Char) :
    a ∈ dedupFirst l ↔ a ∈ l := by
  unfold dedupFirst
  rw [dedupFirst_loop_mem]
  simp

theorem mem_dropWhile_of_not {p : Char → Bool} {c : Char} :
    ∀ {s : List Char}, c ∈ s → p c = false → c ∈ s.dropWhile p := by
  intro s
  induction s with
  | nil => simp
  | cons x xs ih =>
    intro hc hp
    rw [List.dropWhile_cons]
    by_cases hx : p x = true
    · rw [if_pos hx]
      rcases List.mem_cons.mp hc with rfl | h
      · rw [hx] at hp; cases hp
      · exact ih h hp
    · rw [if_neg hx]
      exact hc

theorem digit_not_ws {c : Char} (h : c.isDigit = true) : c.isWhitespace = false := by
  by_contra hne
  have hw : c.isWhitespace = true := by
    cases hb : c.isWhitespace
    · exact absurd hb hne
    · rfl
  simp only [Char.isWhitespace, Bool.or_eq_true, decide_eq_true_eq] at hw
  rcases hw with ((rfl | rfl) | rfl) | rfl <;> exact absurd h (by decide)

theorem pyStrip_mem_ne_nil {s : List Char} {c : Char} (hc : c ∈ s)
    (hw : c.isWhitespace = false) : pyStrip s ≠ [] := by
  intro h
  unfold pyStrip at h
  rw [List.reverse_eq_nil_iff, List.dropWhile_eq_nil_iff] at h
  have h1 : c ∈ (s.dropWhile Char.isWhitespace).reverse := by
    rw [List.mem_reverse]
    exact mem_dropWhile_of_not hc hw
  exact absurd (h c h1) (by simp [hw])

/-! ## Claim C2: variant generation invariants -/

/-- Claim C2, counterexample: on the empty input, `_generate_all_id_variants`
returns the empty list (the empty-string variants are filtered out), so its
result is not a non-empty set and does not contain the trimmed original or
the digits-only form.  The same happens for any whitespace-only input. -/
theorem claim_C2_counterexample : idVariants (chars "") = [] := by decide

/-- Claim C2 (amended): variant generation is a pure function of its input
(it is a Lean function of `idNumber` alone), and for every input containing
at least one digit character the result is non-empty and contains both the
trimmed original input and the digits-only form.  (Digit-free inputs lose
the empty digits-only form to the final non-empty filter, and empty or
whitespace-only inputs yield the empty list.) -/
theorem claim_C2_theorem (s : List Char) (h : ∃ c ∈ s, c.isDigit = true) :
    idVariants s ≠ [] ∧ pyStrip s ∈ idVariants s ∧ digitsOnlyOf s ∈ idVariants s := by
  obtain ⟨c, hcs, hcd⟩ := h
  have hstrip : pyStrip s ≠ [] := pyStrip_mem_ne_nil hcs (digit_not_ws hcd)
  have hdigits : digitsOnlyOf s ≠ [] := by
    have : c ∈ digitsOnlyOf s := List.mem_filter.mpr ⟨hcs, hcd⟩
    exact List.ne_nil_of_mem this
  have h1 : pyStrip s ∈ idVariants s := by
    unfold idVariants
    rw [mem_dedupFirst]
    apply List.mem_filter.mpr
    refine ⟨?_, ?_⟩
    · apply List.mem_append_left
      apply List.mem_append_left
      exact List.mem_cons_self _ _
    · simpa [List.isEmpty_iff] using hstrip
  have h2 : digitsOnlyOf s ∈ idVariants s := by
    unfold idVariants
    rw [mem_dedupFirst]
    apply List.mem_filter.mpr
    refine ⟨?_, ?_⟩
    · apply List.mem_append_left
      apply List.mem_append_left
      exact List.mem_cons_of_mem _ (List.mem_cons_self _ _)
    · simpa [List.isEmpty_iff] using hdigits
  exact ⟨List.ne_nil_of_mem h1, h1, h2⟩

/-- Claim C2, witness: the amended theorem applied to the concrete FEI
number `3004568091`. -/
theorem claim_C2_witness :
    idVariants (chars "3004568091") ≠ [] ∧
      pyStrip (chars "3004568091") ∈ idVariants (chars "3004568091") ∧
      digitsOnlyOf (chars "3004568091") ∈ idVariants (chars "3004568091") :=
  claim_C2_theorem (chars "3004568091") ⟨'3', by decide, by decide⟩

/-! ## Claim C4: digit strings of length 8-11 -/

theorem digit_beq_dash_false {c : Char} (h : c.isDigit = true) : (c == '-') = false := by
  by_contra hne
  have : c = '-' := by
    cases hb : (c == '-')
    · exact absurd hb hne
    · exact eq_of_beq hb
  subst this
  exact absurd h (by decide)

theorem filter_digitOrDash_of_digits {d : List Char} (hd : ∀ c ∈ d, c.isDigit = true) :
    d.filter digitOrDash = d :=
  List.filter_eq_self.mpr (fun c hc => by simp [digitOrDash, hd c hc])

theorem filter_nodash_of_digits {d : List Char} (hd : ∀ c ∈ d, c.isDigit = true) :
    d.filter (fun c => !(c == '-')) = d :=
  List.filter_eq_self.mpr (fun c hc => by simp [digit_beq_dash_false (hd c hc)])

theorem contains_dash_of_digits {d : List Char} (hd : ∀ c ∈ d, c.isDigit = true) :
    d.contains '-' = false := by
  cases hb : d.contains '-'
  · rfl
  · exfalso
    have : '-' ∈ d := by simpa [List.contains, List.elem_iff] using hb
    exact absurd (hd '-' this) (by decide)

/-- Claim C4: for every all-digit string `d` of length 8 to 11,
`normalize_ndc_for_matching d` contains `d` itself and the zero-padded
11-digit form of `d`. -/
theorem claim_C4_theorem (d : List Char) (hd : ∀ c ∈ d, c.isDigit = true)
    (h8 : 8 ≤ d.length) (h11 : d.length ≤ 11) :
    d ∈ ndcVariants d ∧ (List.replicate (11 - d.length) '0' ++ d) ∈ ndcVariants d := by
  have hne : ¬d.isEmpty := by
    cases d with
    | nil => simp at h8
    | cons x xs => simp
  simp only [ndcVariants, filter_digitOrDash_of_digits hd, filter_nodash_of_digits hd,
    contains_dash_of_digits hd, Bool.false_eq_true, if_false, List.nil_append]
  have hlen : d.length = 8 ∨ d.length = 9 ∨ d.length = 10 ∨ d.length = 11 := by omega
  constructor
  · apply List.mem_filter.mpr
    refine ⟨List.mem_append_left _ (List.mem_cons_self _ _), ?_⟩
    simp only [Bool.and_eq_true, Bool.not_eq_true', decide_eq_true_eq]
    exact ⟨by simpa using hne, by omega⟩
  · apply List.mem_filter.mpr
    constructor
    · apply List.mem_append_left
      rcases hlen with hl | hl | hl | hl <;>
        simp only [hl, List.mem_cons] <;> norm_num <;>
        simp [List.replicate_succ, List.replicate]
    · simp only [Bool.and_eq_true, Bool.not_eq_true', decide_eq_true_eq]
      constructor
      · cases h : (List.replicate (11 - d.length) '0' ++ d).isEmpty
        · rfl
        · exfalso
          rw [List.isEmpty_iff, List.append_eq_nil] at h
          exact absurd h.2 (by cases d with | nil => simp at h8 | cons x xs => simp)
      · rw [List.length_append, List.length_replicate]
        omega

/-- Claim C4, witness: the theorem applied to the 8-digit string `12345678`,
whose zero-padded 11-digit form is `00012345678`. -/
theorem claim_C4_witness :
    chars "12345678" ∈ ndcVariants (chars "12345678") ∧
      (List.replicate (11 - (chars "12345678").length) '0' ++ chars "12345678") ∈
        ndcVariants (chars "12345678") :=
  claim_C4_theorem (chars "12345678") (by decide) (by decide) (by decide)

/-! ## Claim C1: dash-format segment conversions -/

theorem not_isEmpty_of_length_pos {s : List Char} (h : 0 < s.length) :
    s.isEmpty = false := by
  cases s with
  | nil => simp at h
  | cons x xs => rfl

theorem splitDash_ne_nil (s : List Char) : splitDash s ≠ [] := by
  induction s with
  | nil => simp [splitDash]
  | cons x xs ih =>
    rw [splitDash]
    by_cases hx : (x == '-') = true
    · simp [hx]
    · rw [if_neg hx]
      rcases h : splitDash xs with _ | ⟨p, ps⟩
      · simp
      · simp

theorem splitDash_no_dash {s : List Char} (h : ∀ c ∈ s, (c == '-') = false) :
    splitDash s = [s] := by
  induction s with
  | nil => rfl
  | cons x xs ih =>
    rw [splitDash, if_neg (by simp [h x (List.mem_cons_self _ _)]),
      ih (fun c hc => h c (List.mem_cons_of_mem _ hc))]

theorem splitDash_append {s t : List Char} (h : ∀ c ∈ s, (c == '-') = false) :
    splitDash (s ++ '-' :: t) = s :: splitDash t := by
  induction s with
  | nil => simp [splitDash]
  | cons x xs ih =>
    rw [List.cons_append, splitDash, if_neg (by simp [h x (List.mem_cons_self _ _)]),
      ih (fun c hc => h c (List.mem_cons_of_mem _ hc))]

theorem splitDash_mkNdc {l p k : List Char}
    (hl : ∀ c ∈ l, (c == '-') = false) (hp : ∀ c ∈ p, (c == '-') = false)
    (hk : ∀ c ∈ k, (c == '-') = false) :
    splitDash (mkNdc l p k) = [l, p, k] := by
  unfold mkNdc
  rw [splitDash_append hl, splitDash_append hp, splitDash_no_dash hk]

theorem mkNdc_filter_digitOrDash {l p k : List Char}
    (hl : ∀ c ∈ l, c.isDigit = true) (hp : ∀ c ∈ p, c.isDigit = true)
    (hk : ∀ c ∈ k, c.isDigit = true) :
    (mkNdc l p k).filter digitOrDash = mkNdc l p k := by
  apply List.filter_eq_self.mpr
  intro c hc
  simp only [mkNdc, List.mem_append, List.mem_cons] at hc
  rcases hc with h | rfl | h | rfl | h
  · simp [digitOrDash, hl c h]
  · decide
  · simp [digitOrDash, hp c h]
  · decide
  · simp [digitOrDash, hk c h]

theorem mkNdc_contains_dash (l p k : List Char) :
    (mkNdc l p k).contains '-' = true := by
  simp only [List.contains, List.elem_iff, mkNdc]
  exact List.mem_append_right _ (List.mem_cons_self _ _)

/-- Claim C1, counterexample: the 5-4-2 input `00002-1425-03` represents the
11-digit value `00002142503`, whose 4-4-2 form is `0002-1425-03`; the
expansion does not produce it (the code never emits 4-4-2 dash layouts), so
the claimed pairwise conversions between all four segment conventions fail. -/
theorem claim_C1_counterexample :
    chars "0002-1425-03" ∉ ndcVariants (chars "00002-1425-03") := by decide

/-- Claim C1 (amended): of the claimed pairwise conversions only the
5-4-2 ↔ 5-3-2 product-segment zero shift is performed: every all-digit
5-3-2 input `l-p-k` yields its 5-4-2 equivalent `l-0p-k`, and every
all-digit 5-4-2 input whose product segment starts with `0` yields its
5-3-2 equivalent; 4-4-2 and 4-3-2 equivalents are not produced in general
(see the counterexample). -/
theorem claim_C1_theorem :
    (∀ l p k : List Char, (∀ c ∈ l ++ p ++ k, c.isDigit = true) →
      l.length = 5 → p.length = 3 → k.length = 2 →
      mkNdc l ('0' :: p) k ∈ ndcVariants (mkNdc l p k)) ∧
    (∀ l p k : List Char, (∀ c ∈ l ++ p ++ k, c.isDigit = true) →
      l.length = 5 → p.length = 4 → k.length = 2 → p.take 1 = ['0'] →
      mkNdc l (p.drop 1) k ∈ ndcVariants (mkNdc l p k)) := by
  constructor
  · intro l p k hdig hl hp hk
    have hld : ∀ c ∈ l, c.isDigit = true := fun c hc =>
      hdig c (List.mem_append_left _ (List.mem_append_left _ hc))
    have hpd : ∀ c ∈ p, c.isDigit = true := fun c hc =>
      hdig c (List.mem_append_left _ (List.mem_append_right _ hc))
    have hkd : ∀ c ∈ k, c.isDigit = true := fun c hc =>
      hdig c (List.mem_append_right _ hc)
    simp only [ndcVariants, mkNdc_filter_digitOrDash hld hpd hkd,
      mkNdc_contains_dash, if_true,
      splitDash_mkNdc (fun c hc => digit_beq_dash_false (hld c hc))
        (fun c hc => digit_beq_dash_false (hpd c hc))
        (fun c hc => digit_beq_dash_false (hkd c hc))]
    rw [if_neg (by simp [hp]), if_pos (by simp [hl, hp, hk])]
    apply List.mem_filter.mpr
    constructor
    · apply List.mem_append_left
      exact List.mem_cons_of_mem _ (List.mem_append_left _ (List.mem_cons_self _ _))
    · have hlen : (mkNdc l ('0' :: p) k).length = 13 := by
        simp [mkNdc, List.length_append, hl, hp, hk]
      simp only [Bool.and_eq_true, Bool.not_eq_true', decide_eq_true_eq, hlen]
      exact ⟨not_isEmpty_of_length_pos (by rw [hlen]; omega), by omega⟩
  · intro l p k hdig hl hp hk hp0
    have hld : ∀ c ∈ l, c.isDigit = true := fun c hc =>
      hdig c (List.mem_append_left _ (List.mem_append_left _ hc))
    have hpd : ∀ c ∈ p, c.isDigit = true := fun c hc =>
      hdig c (List.mem_append_left _ (List.mem_append_right _ hc))
    have hkd : ∀ c ∈ k, c.isDigit = true := fun c hc =>
      hdig c (List.mem_append_right _ hc)
    simp only [ndcVariants, mkNdc_filter_digitOrDash hld hpd hkd,
      mkNdc_contains_dash, if_true,
      splitDash_mkNdc (fun c hc => digit_beq_dash_false (hld c hc))
        (fun c hc => digit_beq_dash_false (hpd c hc))
        (fun c hc => digit_beq_dash_false (hkd c hc))]
    rw [if_pos (by simp [hl, hp, hk, hp0])]
    apply List.mem_filter.mpr
    constructor
    · apply List.mem_append_left
      exact List.mem_cons_of_mem _ (List.mem_append_left _ (List.mem_cons_self _ _))
    · have hlen : (mkNdc l (p.drop 1) k).length = 12 := by
        simp [mkNdc, List.length_append, List.length_drop, hl, hp, hk]
      simp only [Bool.and_eq_true, Bool.not_eq_true', decide_eq_true_eq, hlen]
      exact ⟨not_isEmpty_of_length_pos (by rw [hlen]; omega), by omega⟩

/-- Claim C1, witness: the amended theorem applied to the example NDCs
`50242-061-10` (5-3-2, giving `50242-0061-10`) and `00185-0674-01`
(5-4-2 with product starting in zero, giving `00185-674-01`). -/
theorem claim_C1_witness :
    mkNdc (chars "50242") ('0' :: chars "061") (chars "10") ∈
      ndcVariants (mkNdc (chars "50242") (chars "061") (chars "10")) ∧
    mkNdc (chars "00185") ((chars "0674").drop 1) (chars "01") ∈
      ndcVariants (mkNdc (chars "00185") (chars "0674") (chars "01")) :=
  ⟨claim_C1_theorem.1 (chars "50242") (chars "061") (chars "10")
      (by decide) (by decide) (by decide) (by decide),
   claim_C1_theorem.2 (chars "00185") (chars "0674") (chars "01")
      (by decide) (by decide) (by decide) (by decide) (by decide)⟩

/-! ## Claim C9: idempotence of normalize_ndc -/

theorem nat_beq_false {a b : Nat} (h : a ≠ b) : (a == b) = false := by
  cases hb : (a == b)
  · rfl
  · exact absurd (eq_of_beq hb) h

/-- Strings that already pass the dashed-NDC pattern are returned unchanged. -/
theorem normalize_ndc_fixed_dashed {s : List Char}
    (hfil : s.filter digitOrDash = s) (hc : s.contains '-' = true)
    (hm : matchesDashedNdc s = true) : normalize_ndc s = s := by
  unfold normalize_ndc
  simp only [hfil, hc, if_true, hm]

/-- All-digit strings of length outside 8-11 are returned unchanged. -/
theorem normalize_ndc_fixed_digits {s : List Char} (hd : ∀ c ∈ s, c.isDigit = true)
    (h8 : s.length ≠ 8) (h9 : s.length ≠ 9) (h10 : s.length ≠ 10)
    (h11 : s.length ≠ 11) : normalize_ndc s = s := by
  unfold normalize_ndc fmtNdcDigits
  simp only [filter_digitOrDash_of_digits hd, contains_dash_of_digits hd,
    Bool.false_eq_true, if_false, nat_beq_false h8, nat_beq_false h9,
    nat_beq_false h10, nat_beq_false h11]

/-- Dash-formatted outputs of the normalizer are fixed points. -/
theorem normalize_ndc_fixed_formatted {a b c : List Char}
    (ha : ∀ x ∈ a, x.isDigit = true) (hb : ∀ x ∈ b, x.isDigit = true)
    (hc : ∀ x ∈ c, x.isDigit = true) (la : a.length = 5)
    (lb : b.length = 3 ∨ b.length = 4) (lc : c.length = 2) :
    normalize_ndc (mkNdc a b c) = mkNdc a b c := by
  apply normalize_ndc_fixed_dashed (mkNdc_filter_digitOrDash ha hb hc)
    (mkNdc_contains_dash a b c)
  unfold matchesDashedNdc
  rw [splitDash_mkNdc (fun x hx => digit_beq_dash_false (ha x hx))
    (fun x hx => digit_beq_dash_false (hb x hx))
    (fun x hx => digit_beq_dash_false (hc x hx))]
  have hA : isDigits a = true := List.all_eq_true.mpr (fun x hx => ha x hx)
  have hB : isDigits b = true := List.all_eq_true.mpr (fun x hx => hb x hx)
  have hC : isDigits c = true := List.all_eq_true.mpr (fun x hx => hc x hx)
  rcases lb with lb | lb <;> simp [hA, hB, hC, la, lb, lc]

/-- The pad-and-format tail always produces a fixed point of `normalize_ndc`
when fed an all-digit string. -/
theorem normalize_ndc_fmt_fixed {d : List Char} (hd : ∀ x ∈ d, x.isDigit = true) :
    normalize_ndc (fmtNdcDigits d) = fmtNdcDigits d := by
  have key : ∀ e : List Char, (∀ x ∈ e, x.isDigit = true) → e.length = 11 →
      normalize_ndc (mkNdc (e.take 5) ((e.drop 5).take 4) (e.drop 9)) =
        mkNdc (e.take 5) ((e.drop 5).take 4) (e.drop 9) := by
    intro e he hlen
    apply normalize_ndc_fixed_formatted
    · exact fun x hx => he x (List.take_subset _ _ hx)
    · exact fun x hx => he x (List.drop_subset _ _ (List.take_subset _ _ hx))
    · exact fun x hx => he x (List.drop_subset _ _ hx)
    · rw [List.length_take]; omega
    · right; rw [List.length_take, List.length_drop]; omega
    · rw [List.length_drop]; omega
  have key10 : ∀ e : List Char, (∀ x ∈ e, x.isDigit = true) → e.length = 10 →
      normalize_ndc (mkNdc (e.take 5) ((e.drop 5).take 3) (e.drop 8)) =
        mkNdc (e.take 5) ((e.drop 5).take 3) (e.drop 8) := by
    intro e he hlen
    apply normalize_ndc_fixed_formatted
    · exact fun x hx => he x (List.take_subset _ _ hx)
    · exact fun x hx => he x (List.drop_subset _ _ (List.take_subset _ _ hx))
    · exact fun x hx => he x (List.drop_subset _ _ hx)
    · rw [List.length_take]; omega
    · left; rw [List.length_take, List.length_drop]; omega
    · rw [List.length_drop]; omega
  have hcons : ∀ (x : Char) (e : List Char), x.isDigit = true →
      (∀ y ∈ e, y.isDigit = true) → ∀ y ∈ x :: e, y.isDigit = true := by
    intro x e hx he y hy
    rcases List.mem_cons.mp hy with rfl | hy
    · exact hx
    · exact he y hy
  by_cases c10 : d.length = 10
  · have he : fmtNdcDigits d =
        mkNdc (('0' :: d).take 5) ((('0' :: d).drop 5).take 4) (('0' :: d).drop 9) := by
      unfold fmtNdcDigits
      simp [c10]
    rw [he]
    exact key _ (hcons _ _ (by decide) hd) (by simp [c10])
  · by_cases c8 : d.length = 8
    · have he : fmtNdcDigits d =
          mkNdc (('0' :: '0' :: '0' :: d).take 5)
            ((('0' :: '0' :: '0' :: d).drop 5).take 4)
            (('0' :: '0' :: '0' :: d).drop 9) := by
        unfold fmtNdcDigits
        simp [c8]
      rw [he]
      exact key _ (hcons _ _ (by decide) (hcons _ _ (by decide)
        (hcons _ _ (by decide) hd))) (by simp [c8])
    · by_cases c9 : d.length = 9
      · have he : fmtNdcDigits d =
            mkNdc (('0' :: '0' :: d).take 5)
              ((('0' :: '0' :: d).drop 5).take 4) (('0' :: '0' :: d).drop 9) := by
          unfold fmtNdcDigits
          simp [c9]
        rw [he]
        exact key _ (hcons _ _ (by decide) (hcons _ _ (by decide) hd)) (by simp [c9])
      · by_cases c11 : d.length = 11
        · have he : fmtNdcDigits d =
              mkNdc (d.take 5) ((d.drop 5).take 4) (d.drop 9) := by
            unfold fmtNdcDigits
            simp [c11]
          rw [he]
          exact key _ hd c11
        · have he : fmtNdcDigits d = d := by
            unfold fmtNdcDigits
            simp [nat_beq_false c8, nat_beq_false c9, nat_beq_false c10,
              nat_beq_false c11]
          rw [he]
          exact normalize_ndc_fixed_digits hd c8 c9 c10 c11

/-- Claim C9: `normalize_ndc` is idempotent -- every output (an already
valid dashed NDC, a freshly formatted 5-4-2/5-3-2 string, or the digits-only
passthrough) is a fixed point. -/
theorem claim_C9_theorem (s : List Char) :
    normalize_ndc (normalize_ndc s) = normalize_ndc s := by
  have hcleanAll : ∀ c ∈ s.filter digitOrDash, digitOrDash c = true :=
    fun c hc => List.of_mem_filter hc
  by_cases hdash : (s.filter digitOrDash).contains '-' = true
  · by_cases hm : matchesDashedNdc (s.filter digitOrDash) = true
    · have hout : normalize_ndc s = s.filter digitOrDash := by
        unfold normalize_ndc
        simp only [hdash, if_true, hm]
      rw [hout]
      exact normalize_ndc_fixed_dashed
        (List.filter_eq_self.mpr hcleanAll) hdash hm
    · have hout : normalize_ndc s =
          fmtNdcDigits ((s.filter digitOrDash).filter (fun c => !(c == '-'))) := by
        unfold normalize_ndc
        simp only [hdash, if_true, hm, Bool.false_eq_true, if_false]
      rw [hout]
      apply normalize_ndc_fmt_fixed
      intro c hc
      obtain ⟨hmem, h1⟩ := List.mem_filter.mp hc
      have h2 := hcleanAll c hmem
      simp only [digitOrDash, Bool.or_eq_true] at h2
      rcases h2 with h2 | h2
      · exact h2
      · rw [h2] at h1; cases h1
  · have hdashf : (s.filter digitOrDash).contains '-' = false := by
      revert hdash
      cases (s.filter digitOrDash).contains '-' <;> simp
    have hout : normalize_ndc s = fmtNdcDigits (s.filter digitOrDash) := by
      unfold normalize_ndc
      simp only [hdashf, Bool.false_eq_true, if_false]
    rw [hout]
    apply normalize_ndc_fmt_fixed
    intro c hc
    have h2 := hcleanAll c hc
    simp only [digitOrDash, Bool.or_eq_true] at h2
    rcases h2 with h2 | h2
    · exact h2
    · exfalso
      apply hdash
      have : c = '-' := eq_of_beq h2
      subst this
      simpa [List.contains, List.elem_iff] using hc

/-! ## Claims C7 and C10: address parsing -/

/-- Claim C7, counterexample: on the three-segment address `A,B,C` the last
segment is NOT assigned as state/province (that assignment needs at least
four segments), so `state_province` stays `Unknown` instead of `C`. -/
theorem claim_C7_counterexample :
    (parse_address (chars "A,B,C")).state_province ≠ chars "C" := by decide

/-- Claim C7 (amended): `parse_address` splits on commas after turning
literal backslash-`n` pairs into commas; the first segment (trimmed) becomes
the establishment name; with at least 2 segments the second becomes the
address line (otherwise the whole address is kept); with at least 3 the
second-to-last becomes the city; and only with at least 4 segments the last
segment becomes the state/province with the hard-coded USA / Germany /
Switzerland / Singapore substring mapping (pass-through otherwise); with
fewer segments state and country remain `Unknown`. -/
theorem claim_C7_theorem (address : List Char) :
    (parse_address address).establishment_name =
      pyStrip ((splitOnChar ',' (replaceBsN address)).headD []) ∧
    (2 ≤ (splitOnChar ',' (replaceBsN address)).length →
      (parse_address address).address_line_1 =
        pyStrip ((splitOnChar ',' (replaceBsN address)).getD 1 [])) ∧
    ((splitOnChar ',' (replaceBsN address)).length < 2 →
      (parse_address address).address_line_1 = address) ∧
    (3 ≤ (splitOnChar ',' (replaceBsN address)).length →
      (parse_address address).city =
        pyStrip ((splitOnChar ',' (replaceBsN address)).getD
          ((splitOnChar ',' (replaceBsN address)).length - 2) [])) ∧
    (4 ≤ (splitOnChar ',' (replaceBsN address)).length →
      (parse_address address).state_province =
        pyStrip ((splitOnChar ',' (replaceBsN address)).getLastD []) ∧
      (parse_address address).country =
        countryOf (pyStrip ((splitOnChar ',' (replaceBsN address)).getLastD []))) ∧
    ((splitOnChar ',' (replaceBsN address)).length < 4 →
      (parse_address address).state_province = chars "Unknown" ∧
      (parse_address address).country = chars "Unknown") := by
  by_cases h2 : 2 ≤ (splitOnChar ',' (replaceBsN address)).length <;>
    by_cases h3 : 3 ≤ (splitOnChar ',' (replaceBsN address)).length <;>
      by_cases h4 : 4 ≤ (splitOnChar ',' (replaceBsN address)).length <;>
        cases hps : postalSearch address <;>
          simp [parse_address, h2, h3, h4, hps]

/-- Claim C7, witness: the amended theorem applied to a four-segment
address; the last segment becomes state/province and is mapped to country
`USA`. -/
theorem claim_C7_witness :
    (parse_address (chars "Acme Labs, 1 Main St, Boston, MA USA")).state_province =
      pyStrip ((splitOnChar ','
        (replaceBsN (chars "Acme Labs, 1 Main St, Boston, MA USA"))).getLastD []) ∧
    (parse_address (chars "Acme Labs, 1 Main St, Boston, MA USA")).country =
      countryOf (pyStrip ((splitOnChar ','
        (replaceBsN (chars "Acme Labs, 1 Main St, Boston, MA USA"))).getLastD [])) :=
  ((claim_C7_theorem (chars "Acme Labs, 1 Main St, Boston, MA USA")).2.2.2.2.1
    (by decide))

/-- The postal-code pattern only ever matches texts that start with a
literal backslash, so backslash-free addresses never match. -/
theorem postalSearch_none {address : List Char} (h : '\\' ∉ address) :
    postalSearch address = none := by
  induction address with
  | nil => rfl
  | cons c rest ih =>
    have hc : c ≠ '\\' := fun hh => h (hh ▸ List.mem_cons_self _ _)
    rw [postalSearch]
    have hfind : postalTokens.find? (fun tk => tk.1.isPrefixOf (c :: rest)) = none := by
      apply List.find?_eq_none.mpr
      intro tk htk
      have hbs : '\\' ≠ c := fun hh => hc hh.symm
      simp only [postalTokens, chars, List.mem_cons, List.not_mem_nil, or_false] at htk
      rcases htk with rfl | rfl | rfl | rfl <;>
        simp [List.isPrefixOf, String.data] <;>
          exact fun hh => absurd hh.symm hc
    rw [hfind]
    exact ih (fun hm => h (List.mem_cons_of_mem _ hm))

/-- Claim C10: for every address containing no backslash character,
`parse_address` extracts no postal code -- the doubled backslashes of the
raw-string pattern make it match only texts with literal backslashes, so
ordinary 5-digit or ZIP+4 codes are never found. -/
theorem claim_C10_theorem (address : List Char) (h : '\\' ∉ address) :
    (parse_address address).postal_code = [] := by
  unfold parse_address
  rw [postalSearch_none h]
  by_cases h2 : 2 ≤ (splitOnChar ',' (replaceBsN address)).length <;>
    by_cases h3 : 3 ≤ (splitOnChar ',' (replaceBsN address)).length <;>
      by_cases h4 : 4 ≤ (splitOnChar ',' (replaceBsN address)).length <;>
        simp [h2, h3, h4]

/-- Claim C10, witness: an ordinary US address with a ZIP code still yields
an empty postal code. -/
theorem claim_C10_witness :
    (parse_address (chars "123 Main St, Springfield, IL 62704, USA")).postal_code = [] :=
  claim_C10_theorem (chars "123 Main St, Springfield, IL 62704, USA") (by decide)

/-! ## Claim C6: Manufacture vs API Manufacture exclusivity -/

theorem not_mem_erase_self {α : Type} [BEq α] [LawfulBEq α] {a : α} :
    ∀ {l : List α}, l.Nodup → a ∉ l.erase a := by
  intro l
  induction l with
  | nil => intro _ h; simp at h
  | cons x xs ih =>
    intro hnd hm
    rw [List.erase_cons] at hm
    by_cases hx : (x == a) = true
    · rw [if_pos hx] at hm
      have : x = a := eq_of_beq hx
      subst this
      exact (List.nodup_cons.mp hnd).1 hm
    · rw [if_neg hx] at hm
      rcases List.mem_cons.mp hm with rfl | hm2
      · exact hx (by simp)
      · exact ih (List.nodup_cons.mp hnd).2 hm2

theorem append_singleton_nodup {a : List Char} {l : List (List Char)}
    (h : l.Nodup) (ha : l.contains a = false) : (l ++ [a]).Nodup := by
  apply List.Nodup.append h (List.nodup_singleton a)
  intro x hx hxa
  rw [List.mem_singleton] at hxa
  subst hxa
  have : x ∈ l → l.contains x = true := by
    intro hm
    simpa [List.contains, List.elem_iff] using hm
  rw [this hx] at ha
  cases ha

/-- After the final `API Manufacture` / `Manufacture` dedup step, a
duplicate-free operation list never retains both labels. -/
theorem dropPlainManufacture_not_both (ops quotes : List (List Char))
    (h : ops.Nodup) :
    ¬(chars "Manufacture" ∈ (dropPlainManufacture ops quotes).1 ∧
      chars "API Manufacture" ∈ (dropPlainManufacture ops quotes).1) := by
  unfold dropPlainManufacture
  cases hc : (ops.contains (chars "API Manufacture") && ops.contains (chars "Manufacture"))
  · rw [Bool.and_eq_false_iff] at hc
    rintro ⟨hm, ha⟩
    rcases hc with hc | hc
    · have : ops.contains (chars "API Manufacture") = true := by
        simpa [List.contains, List.elem_iff] using ha
      rw [this] at hc; cases hc
    · have : ops.contains (chars "Manufacture") = true := by
        simpa [List.contains, List.elem_iff] using hm
      rw [this] at hc; cases hc
  · simp only [hc, if_true]
    rintro ⟨hm, _⟩
    exact not_mem_erase_self h hm

theorem ops_fold_nodup {β : Type}
    (g : List (List Char) × List (List Char) → β → Option (List Char))
    (q : List (List Char) × List (List Char) → β → List Char → List Char)
    (l : List β) :
    ∀ st : List (List Char) × List (List Char), st.1.Nodup →
      (l.foldl (fun st e =>
        match g st e with
        | some op => if !st.1.contains op then
            (st.1 ++ [op], st.2 ++ [q st e op]) else st
        | none => st) st).1.Nodup := by
  induction l with
  | nil => intro st h; exact h
  | cons x xs ih =>
    intro st h
    simp only [List.foldl_cons]
    apply ih
    rcases hg : g st x with _ | op
    · exact h
    · cases hcont : st.1.contains op
      · simp only [hcont, Bool.not_false, if_true]
        exact append_singleton_nodup h hcont
      · simp only [hcont, Bool.not_true, Bool.false_eq_true, if_false]
        exact h

theorem foldl_preserves {α β : Type} (f : α → β → α) (P : α → Prop)
    (hf : ∀ a b, P a → P (f a b)) :
    ∀ (l : List β) (a : α), P a → P (l.foldl f a) := by
  intro l
  induction l with
  | nil => intro a h; exact h
  | cons x xs ih =>
    intro a h
    exact ih (f a x) (hf a x h)

theorem ndcOpStep_nodup (v : List (List Char)) (t n : List Char)
    (st : List (List Char) × List (List Char)) (perf : List Char)
    (h : st.1.Nodup) : (ndcOpStep v t n st perf).1.Nodup := by
  unfold ndcOpStep
  rcases ndcOpFound perf with _ | op
  · exact h
  · simp only []
    cases hfound : ((findNdcSystemCodes perf).any (fun code =>
        (ndcVariants (pyStrip code)).any (fun u => v.contains u)))
    · simp only [Bool.false_and, Bool.false_eq_true, if_false]
      exact h
    · cases hcont : st.1.contains op
      · simp only [hcont, Bool.not_false, Bool.true_and, if_true]
        exact append_singleton_nodup h hcont
      · simp only [hcont, Bool.not_true, Bool.and_false, Bool.false_eq_true, if_false]
        exact h

theorem genOpStep_nodup (n : List Char)
    (st : List (List Char) × List (List Char)) (busOp : List Char)
    (h : st.1.Nodup) : (genOpStep n st busOp).1.Nodup := by
  unfold genOpStep
  rcases genOpFound busOp with _ | op
  · exact h
  · cases hcont : st.1.contains op
    · simp only [hcont, Bool.not_false, if_true]
      exact append_singleton_nodup h hcont
    · simp only [hcont, Bool.not_true, Bool.false_eq_true, if_false]
      exact h

/-- Claim C6: for every establishment section, target NDC and establishment
name, neither extractor returns an operation list containing both
`Manufacture` and `API Manufacture` -- when both would apply, only
`API Manufacture` survives the final dedup step. -/
theorem claim_C6_theorem (sectionText targetNdc estName : List Char) :
    ¬(chars "Manufacture" ∈ (extract_ndc_specific_operations sectionText targetNdc estName).1 ∧
      chars "API Manufacture" ∈ (extract_ndc_specific_operations sectionText targetNdc estName).1) ∧
    ¬(chars "Manufacture" ∈ (extract_general_operations sectionText estName).1 ∧
      chars "API Manufacture" ∈ (extract_general_operations sectionText estName).1) := by
  constructor
  · unfold extract_ndc_specific_operations
    apply dropPlainManufacture_not_both
    exact foldl_preserves _ (fun st => st.1.Nodup)
      (fun st perf h => ndcOpStep_nodup _ _ _ st perf h) _ ([], []) List.nodup_nil
  · unfold extract_general_operations
    apply dropPlainManufacture_not_both
    exact foldl_preserves _ (fun st => st.1.Nodup)
      (fun st busOp h => genOpStep_nodup _ st busOp h) _ ([], []) List.nodup_nil

/-! ## Claim C5: result capping and deduplication -/

theorem nodup_append_singleton {α : Type} {a : α} {l : List α}
    (h : l.Nodup) (ha : a ∉ l) : (l ++ [a]).Nodup := by
  apply List.Nodup.append h (List.nodup_singleton a)
  intro x hx hxa
  rw [List.mem_singleton] at hxa
  exact ha (hxa ▸ hx)

/-- Every step of the establishment loop either leaves the state unchanged,
or marks the cleaned number processed and optionally appends a single row
keyed by that number. -/
theorem establishmentsLoopStep_shape (sections : List (List Char))
    (feiDb dunsDb : Db) (targetNdc : List Char)
    (st : List (List Char) × List (List Char × Establishment)) (m : FEIMatch) :
    establishmentsLoopStep sections feiDb dunsDb targetNdc st m = st ∨
    (st.1.contains m.fei_number = false ∧
      (establishmentsLoopStep sections feiDb dunsDb targetNdc st m).1 =
        st.1 ++ [m.fei_number] ∧
      ((establishmentsLoopStep sections feiDb dunsDb targetNdc st m).2 = st.2 ∨
       ∃ row, (establishmentsLoopStep sections feiDb dunsDb targetNdc st m).2 =
          st.2 ++ [(m.fei_number, row)])) := by
  unfold establishmentsLoopStep
  cases hc : st.1.contains m.fei_number
  · rw [if_neg Bool.false_ne_true]
    right
    refine ⟨rfl, ?_⟩
    dsimp only
    repeat' split
    all_goals
      first
        | exact ⟨rfl, Or.inl rfl⟩
        | exact ⟨rfl, Or.inr ⟨_, rfl⟩⟩
  · rw [if_pos rfl]
    exact Or.inl rfl

/-- The loop invariant: the keys of the accumulated rows are pairwise
distinct and all recorded in the processed set. -/
theorem extract_establishments_loop_nodup (feiMatches : List FEIMatch)
    (sections : List (List Char)) (feiDb dunsDb : Db) (targetNdc : List Char) :
    ((extract_establishments_loop feiMatches sections feiDb dunsDb targetNdc).2.map
      Prod.fst).Nodup := by
  unfold extract_establishments_loop
  have main := foldl_preserves (establishmentsLoopStep sections feiDb dunsDb targetNdc)
    (fun st => (st.2.map Prod.fst).Nodup ∧ ∀ x ∈ st.2.map Prod.fst, x ∈ st.1)
    ?_ feiMatches ([], []) ⟨List.nodup_nil, by simp⟩
  · exact main.1
  · intro st m h
    rcases establishmentsLoopStep_shape sections feiDb dunsDb targetNdc st m with
      heq | ⟨hc, h1, h2 | ⟨row, h2⟩⟩
    · rw [heq]; exact h
    · rw [h2, h1]
      exact ⟨h.1, fun x hx => List.mem_append_left _ (h.2 x hx)⟩
    · rw [h2, h1]
      have hnotin : m.fei_number ∉ st.2.map Prod.fst := by
        intro hmem
        have := h.2 _ hmem
        have : st.1.contains m.fei_number = true := by
          simpa [List.contains, List.elem_iff] using this
        rw [this] at hc
        cases hc
      constructor
      · rw [List.map_append]
        exact nodup_append_singleton h.1 hnotin
      · intro x hx
        rw [List.map_append] at hx
        rcases List.mem_append.mp hx with hx | hx
        · exact List.mem_append_left _ (h.2 x hx)
        · simp only [List.map_cons, List.map_nil, List.mem_singleton] at hx
          subst hx
          exact List.mem_append_right _ (List.mem_singleton.mpr rfl)

/-- Claim C5 (amended): the query result never exceeds 10 rows, and no two
structured-identifier rows arise from the same cleaned matched identifier
(the `processed_numbers` dedup); rows CAN share the same resolved registry
key when distinct raw extensions resolve to the same record -- see the
counterexample. -/
theorem claim_C5_theorem (splId : Option (List Char)) (statusOk : Bool)
    (content : List Char) (parsed : Option Xml) (feiDb dunsDb : Db)
    (targetNdc : List Char) (labelerInfo : Establishment) :
    (get_establishment_info splId statusOk content parsed feiDb dunsDb targetNdc
        labelerInfo).length ≤ 10 ∧
    ((extract_establishments_with_fei statusOk content parsed feiDb dunsDb
        targetNdc).map Prod.fst).Nodup := by
  constructor
  · unfold get_establishment_info
    exact List.length_take_le _ _
  · unfold extract_establishments_with_fei
    cases statusOk
    · simp
    · simp only [Bool.not_true, Bool.false_eq_true, if_false]
      exact extract_establishments_loop_nodup _ _ _ _ _

/-- The registry record used by the C5 counterexample. -/
def c5rec : Establishment :=
  { establishment_name := chars "Acme Plant", firm_name := chars "Acme",
    address_line_1 := chars "1 Road", city := chars "Boston",
    state_province := chars "MA", country := chars "USA", postal_code := [],
    search_method := chars "spreadsheet_fei_database",
    original_fei := some (chars "12345678") }

/-- The FEI database the loader builds from one spreadsheet row whose FEI
number is `12345678`: one entry per generated key variant. -/
def c5fei : Db := (idVariants (chars "12345678")).map (fun k => (k, c5rec))

/-- A label document carrying the same FEI under two different zero-padded
extensions (18 and 19 digits), each inside its own establishment block with
a manufacture business operation. -/
def c5content : List Char :=
  chars "<document><assignedEntity><id extension=\"000000000012345678\" root=\"1.2\"/><businessOperation><code code=\"C43360\" displayName=\"Manufacture\"/></businessOperation></assignedEntity><assignedEntity><id extension=\"0000000000012345678\" root=\"1.2\"/><businessOperation><code code=\"C43360\" displayName=\"Manufacture\"/></businessOperation></assignedEntity></document>"

/-- The parse of `c5content`. -/
def c5tree : Xml :=
  .elem (chars "document") []
    [.elem (chars "assignedEntity") []
      [.elem (chars "id")
        [(chars "extension", chars "000000000012345678"), (chars "root", chars "1.2")] [],
       .elem (chars "businessOperation") []
         [.elem (chars "code")
           [(chars "code", chars "C43360"), (chars "displayName", chars "Manufacture")] []]],
     .elem (chars "assignedEntity") []
      [.elem (chars "id")
        [(chars "extension", chars "0000000000012345678"), (chars "root", chars "1.2")] [],
       .elem (chars "businessOperation") []
         [.elem (chars "code")
           [(chars "code", chars "C43360"), (chars "displayName", chars "Manufacture")] []]]] 

/-- Claim C5, counterexample: both extensions clean to different digit
strings (so `processed_numbers` keeps both), but both resolve to the same
registry key `12345678`; the query returns two rows sharing that resolved
FEI key, contradicting the claimed deduplication. -/
theorem claim_C5_counterexample :
    ((get_establishment_info (some (chars "spl1")) true c5content (some c5tree)
        c5fei [] (chars "1234-567-89") c5rec).map (fun e => e.fei_number)) =
      [some (chars "12345678"), some (chars "12345678")] := by decide

/-! ## Claim C3: the regex fallback is unreachable -/

/-- A fetched label body that is not well-formed XML (unclosed tag), yet
full of id/extension content the regex scan can recover. -/
def c3content : List Char := chars "<id extension=\"1234567\">"

/-- An FEI database containing the number the malformed document mentions. -/
def c3fei : Db := (idVariants (chars "1234567")).map (fun k => (k, c5rec))

/-- Claim C3: when parsing fails (`parsed = none`, as for `c3content`),
`find_fei_duns_matches_in_spl` returns the empty list -- the
`except ET.XMLSyntaxError` handler names an attribute that does not exist in
`xml.etree.ElementTree`, so the resulting `AttributeError` is swallowed by
the outer `except` and `_find_matches_with_regex` is never invoked -- even
though the regex scan of the same content would produce a full
`IdentifierMatch`. -/
theorem claim_C3_theorem :
    find_fei_duns_matches_in_spl true none c3fei [] = [] ∧
    find_matches_with_regex c3content c3fei [] =
      [{ fei_number := chars "1234567",
         xml_location := chars "Line 1 (regex-based)",
         match_type := chars "FEI_NUMBER",
         establishment_name := chars "Unknown",
         xml_context := c3content }] :=
  ⟨rfl, by decide⟩

/-! ## Claim C8: the no-establishments placeholder row -/

/-- Claim C8: when a product resolves but the establishment list is empty,
`process_single_ndc` returns exactly one placeholder row carrying only the
product metadata (NDC, product name, labeler, label-document id), with every
facility field empty and the marker `no_establishments_found` in the
search-method field. -/
theorem claim_C8_theorem (ndc : List Char) (productInfo : ProductInfo) :
    process_single_ndc_rows ndc productInfo [] =
      [{ ndc := ndc, product_name := productInfo.product_name,
         labeler_name := productInfo.labeler_name,
         spl_id := productInfo.spl_id, fei_number := none, duns_number := none,
         establishment_name := none, firm_name := none, address_line_1 := none,
         city := none, state := none, country := none, postal_code := [],
         spl_operations := none, spl_quotes := none,
         search_method := some (chars "no_establishments_found"),
         xml_location := none, match_type := none, xml_context := [] }] := rfl
